import Mathlib

/-
Verification development for the js-pmd repository, a JavaScript
implementation of Slate-style prototype multiple dispatch.  The
definitions below are a shallow embedding of src/index.js: JavaScript
values, the prototype heap used for property lookup, the per-procedure
role tables, method registration and the lookup and dispatch routines.
-/

deriving instance DecidableEq for Except

namespace PMD

/-- JavaScript runtime values as used by the dispatcher.  Objects and
functions are references into a heap. -/
inductive JSVal where
  | str : String → JSVal
  | num : Int → JSVal
  | bool : Bool → JSVal
  | null : JSVal
  | undef : JSVal
  | obj : Nat → JSVal
deriving DecidableEq, BEq, Repr

/-- Errors surfaced by registration and dispatch: a JavaScript
TypeError (property access on null or undefined), and the string
thrown by dispatch when no method applies. -/
inductive JSErr where
  | typeError : JSErr
  | noApplicableMethod : JSErr
deriving DecidableEq, BEq, Repr

/-- A role table maps a rolename (selector and position, rendered as a
string as in the source) to the ordered list of method names
registered at that owner for that role. -/
abbrev RoleTable := List (String × List String)

/-- Read the method list for a rolename from a role table. -/
def tableGet (t : RoleTable) (role : String) : Option (List String) :=
  match List.find? (fun p => p.1 == role) t with
  | some p => some p.2
  | none => none

/-- Update an association list at a key, appending the pair when the
key is absent. -/
def assocSet {κ α : Type} [BEq κ] (l : List (κ × α)) (k : κ) (v : α) : List (κ × α) :=
  if (List.find? (fun p => p.1 == k) l).isSome then
    l.map (fun p => if p.1 == k then (k, v) else p)
  else
    l ++ [(k, v)]

/-- Append a method name to the role entry of a table, creating the
entry when absent, as table[rolename].push(methodname) does. -/
def tablePush (t : RoleTable) (role m : String) : RoleTable :=
  let cur := match tableGet t role with
    | some ms => ms
    | none => []
  assocSet t role (cur ++ [m])

/-- One heap object: its internal prototype link, its own constructor
property, its own prototype property (for functions), and its own
hidden roles table property. -/
structure ObjRecord where
  proto : Option Nat := none
  consProp : Option JSVal := none
  protoProp : Option JSVal := none
  rolesOwn : Option RoleTable := none
deriving DecidableEq, BEq, Repr

abbrev Heap := List ObjRecord

/-- Walk the prototype chain of a heap object looking for the first
record where the projection yields an own value, with fuel to keep the
walk total (real prototype chains are acyclic and bounded by the heap
size). -/
def protoLookup {α : Type} (h : Heap) (f : ObjRecord → Option α) : Nat → Nat → Option α
  | 0, _ => none
  | fuel + 1, r =>
    match h.get? r with
    | none => none
    | some o =>
      match f o with
      | some v => some v
      | none =>
        match o.proto with
        | some p => protoLookup h f fuel p
        | none => none

/-! References of the built-in objects in the base heap, mirroring the
JavaScript globals the source relies on. -/

def objectProtoRef : Nat := 0
def objectRef : Nat := 1
def functionProtoRef : Nat := 2
def functionRef : Nat := 3
def stringProtoRef : Nat := 4
def stringRef : Nat := 5
def numberProtoRef : Nat := 6
def numberRef : Nat := 7
def booleanProtoRef : Nat := 8
def booleanRef : Nat := 9
def anyProtoRef : Nat := 10
def anyRef : Nat := 11

/-- The ANY root constructor introduced by the source as a universal
top type. -/
def ANY : JSVal := JSVal.obj anyRef

/-- The base heap: the built-in constructors and their prototypes,
with the standard JavaScript links.  ANY is a function whose prototype
property is a plain object, so ANY.prototype.constructor is Object. -/
def baseHeap : Heap :=
  [ { proto := none, consProp := some (JSVal.obj objectRef) },
    { proto := some functionProtoRef, protoProp := some (JSVal.obj objectProtoRef) },
    { proto := some objectProtoRef, consProp := some (JSVal.obj functionRef) },
    { proto := some functionProtoRef, protoProp := some (JSVal.obj functionProtoRef) },
    { proto := some objectProtoRef, consProp := some (JSVal.obj stringRef) },
    { proto := some functionProtoRef, protoProp := some (JSVal.obj stringProtoRef) },
    { proto := some objectProtoRef, consProp := some (JSVal.obj numberRef) },
    { proto := some functionProtoRef, protoProp := some (JSVal.obj numberProtoRef) },
    { proto := some objectProtoRef, consProp := some (JSVal.obj booleanRef) },
    { proto := some functionProtoRef, protoProp := some (JSVal.obj booleanProtoRef) },
    { proto := some objectProtoRef },
    { proto := some functionProtoRef, protoProp := some (JSVal.obj anyProtoRef) } ]

/-- Read a property of a value through its prototype chain, boxing
primitives as JavaScript does; property access on null or undefined
throws a TypeError, and a missing property yields undefined. -/
def getPropChain (h : Heap) (f : ObjRecord → Option JSVal) : JSVal → Except JSErr JSVal
  | JSVal.null => Except.error JSErr.typeError
  | JSVal.undef => Except.error JSErr.typeError
  | JSVal.obj r =>
      Except.ok ((protoLookup h f (h.length + 1) r).getD JSVal.undef)
  | JSVal.str _ =>
      Except.ok ((protoLookup h f (h.length + 1) stringProtoRef).getD JSVal.undef)
  | JSVal.num _ =>
      Except.ok ((protoLookup h f (h.length + 1) numberProtoRef).getD JSVal.undef)
  | JSVal.bool _ =>
      Except.ok ((protoLookup h f (h.length + 1) booleanProtoRef).getD JSVal.undef)

/-- The constructor property of a value, as arg.constructor. -/
def consOf (h : Heap) (v : JSVal) : Except JSErr JSVal :=
  getPropChain h (fun o => o.consProp) v

/-- The prototype property of a value, as arg.prototype. -/
def protoPropOf (h : Heap) (v : JSVal) : Except JSErr JSVal :=
  getPropChain h (fun o => o.protoProp) v

/-- A method body takes the full argument list and returns a value. -/
abbrev Body := List JSVal → JSVal

/-- Per-procedure state: the selector, the method bodies, and the
side tables for primitives that cannot carry a hidden property. -/
structure ProcState where
  name : String
  selector : String
  counter : Nat
  METHODS : List (String × Body)
  STRINGS : List (String × RoleTable)
  NUMBERS : List (Int × RoleTable)
  TRUE_TABLE : RoleTable
  FALSE_TABLE : RoleTable
  NULL_TABLE : RoleTable

/-- Create a procedure: the selector is the gensym of the name, and
the gensym counter continues from there for method names. -/
def procInit (name : String) : ProcState :=
  { name := name, selector := name ++ "_0", counter := 1,
    METHODS := [], STRINGS := [], NUMBERS := [],
    TRUE_TABLE := [], FALSE_TABLE := [], NULL_TABLE := [] }

/-- The reading form of get_table(value, false) from the source:
strings and numbers are looked up by content in the side tables,
booleans and null always have a table, objects read the hidden roles
property through the prototype chain, and undefined throws a
TypeError because the source calls hasOwnProperty on the value. -/
def get_table_read (h : Heap) (st : ProcState) : JSVal → Except JSErr (Option RoleTable)
  | JSVal.str s =>
      Except.ok (match List.find? (fun p => p.1 == s) st.STRINGS with
        | some p => some p.2
        | none => none)
  | JSVal.num n =>
      Except.ok (match List.find? (fun p => p.1 == n) st.NUMBERS with
        | some p => some p.2
        | none => none)
  | JSVal.bool b => Except.ok (some (if b then st.TRUE_TABLE else st.FALSE_TABLE))
  | JSVal.null => Except.ok (some st.NULL_TABLE)
  | JSVal.undef => Except.error JSErr.typeError
  | JSVal.obj r => Except.ok (protoLookup h (fun o => o.rolesOwn) (h.length + 1) r)

/-- The creating form of get_table(value, true) combined with the
role push done in method: record the method name at the role owner of
the specializer, creating the table or entry as needed.  Undefined
throws a TypeError exactly as in the source. -/
def addRole (h : Heap) (st : ProcState) (v : JSVal) (role m : String) :
    Except JSErr (Heap × ProcState) :=
  match v with
  | JSVal.str s =>
      let t := match List.find? (fun p => p.1 == s) st.STRINGS with
        | some p => p.2
        | none => []
      Except.ok (h, { st with STRINGS := assocSet st.STRINGS s (tablePush t role m) })
  | JSVal.num n =>
      let t := match List.find? (fun p => p.1 == n) st.NUMBERS with
        | some p => p.2
        | none => []
      Except.ok (h, { st with NUMBERS := assocSet st.NUMBERS n (tablePush t role m) })
  | JSVal.bool b =>
      if b then Except.ok (h, { st with TRUE_TABLE := tablePush st.TRUE_TABLE role m })
      else Except.ok (h, { st with FALSE_TABLE := tablePush st.FALSE_TABLE role m })
  | JSVal.null =>
      Except.ok (h, { st with NULL_TABLE := tablePush st.NULL_TABLE role m })
  | JSVal.undef => Except.error JSErr.typeError
  | JSVal.obj r =>
      match h.get? r with
      | none => Except.error JSErr.typeError
      | some o =>
          let t := o.rolesOwn.getD []
          Except.ok (h.set r { o with rolesOwn := some (tablePush t role m) }, st)

/-- Record a method name at each specializer, position by position. -/
def addRoles (h : Heap) (st : ProcState) : List JSVal → Nat → String →
    Except JSErr (Heap × ProcState)
  | [], _, _ => Except.ok (h, st)
  | v :: rest, i, m =>
      match addRole h st v (st.selector ++ ":" ++ toString i) m with
      | Except.error e => Except.error e
      | Except.ok (h1, st1) => addRoles h1 st1 rest (i + 1) m

/-- The method registration function of the source: gensym a method
name, record it at every specializer role, then store the body. -/
def methodReg (h : Heap) (st : ProcState) (specs : List JSVal) (body : Body) :
    Except JSErr (Heap × ProcState) :=
  let m := st.name ++ "_" ++ toString st.counter
  let st0 := { st with counter := st.counter + 1 }
  match addRoles h st0 specs 0 m with
  | Except.error e => Except.error e
  | Except.ok (h1, st1) =>
      Except.ok (h1, { st1 with METHODS := st1.METHODS ++ [(m, body)] })

/-- The per-method rank record of the dispatch loop: the raw filled
counter and the sparse vector of chain distances. -/
structure Rank where
  filled : Nat
  vector : List (Option Nat)
deriving DecidableEq, BEq, Repr

/-- Assign vector[i] := pos on a JavaScript array, extending the array
with holes when i is beyond its length. -/
def vecSet (v : List (Option Nat)) (i pos : Nat) : List (Option Nat) :=
  let v1 := if v.length < i + 1 then v ++ List.replicate (i + 1 - v.length) none else v
  v1.set i (some pos)

/-- Render a rank vector the way JavaScript stringifies an array for
the relational comparison: elements joined by commas, holes empty. -/
def vecStr (v : List (Option Nat)) : String :=
  String.intercalate "," (v.map (fun o => match o with
    | some p => toString p
    | none => ""))

/-- Lexicographic comparison of character lists by code unit, the
comparison JavaScript applies to two strings. -/
def charListLt : List Char → List Char → Bool
  | [], [] => false
  | [], _ :: _ => true
  | _ :: _, [] => false
  | a :: as, b :: bs =>
      if a.toNat < b.toNat then true
      else if b.toNat < a.toNat then false
      else charListLt as bs

/-- The comparison rank.vector < ranks[msm].vector performed by the
source, which in JavaScript is a string comparison of the joined
arrays. -/
def vecLt (a b : List (Option Nat)) : Bool :=
  charListLt (vecStr a).data (vecStr b).data

/-- One step of the forEach over the methods found at a role: update
the rank record of the method and possibly promote it to most
specific, exactly as the source does. -/
def rankStep (len i position : Nat) (acc : Option String × List (String × Rank))
    (m : String) : Option String × List (String × Rank) :=
  let msm := acc.1
  let ranks := acc.2
  let rank0 := match List.find? (fun p => p.1 == m) ranks with
    | some p => p.2
    | none => { filled := 0, vector := [] }
  let rank1 : Rank := { filled := rank0.filled + 1, vector := vecSet rank0.vector i position }
  let ranks1 := assocSet ranks m rank1
  let better := match msm with
    | none => true
    | some cur =>
        let curVec := match List.find? (fun p => p.1 == cur) ranks1 with
          | some p => p.2.vector
          | none => []
        vecLt rank1.vector curVec
  if rank1.filled == len && better then (some m, ranks1) else (msm, ranks1)

/-- A frame of the ordering stack: the popped value together with the
flag recording whether it is a value or a constructor. -/
structure Frame where
  isValue : Bool
  arg : JSVal
deriving DecidableEq, BEq, Repr

/-- The delegation block of the loop body: a constructor equal to its
own prototype constructor delegates to ANY; ANY as a constructor
delegates to nothing; otherwise a value delegates to its constructor
and a constructor to its prototype. -/
def delegates (h : Heap) (fr : Frame) : Except JSErr (List Frame) :=
  if fr.isValue then
    match consOf h fr.arg with
    | Except.error e => Except.error e
    | Except.ok c => Except.ok [{ isValue := false, arg := c }]
  else
    match protoPropOf h fr.arg with
    | Except.error e => Except.error e
    | Except.ok pv =>
        match consOf h pv with
        | Except.error e => Except.error e
        | Except.ok pc =>
            if fr.arg == pc then Except.ok [{ isValue := false, arg := ANY }]
            else if fr.arg != ANY then Except.ok [{ isValue := true, arg := pv }]
            else Except.ok []

/-- Result of the inner while loop: the rank table, the current most
specific method, the remaining stack, and the trace of popped values
with their positions. -/
structure LoopOut where
  ranks : List (String × Rank)
  msm : Option String
  stack : List Frame
  trace : List (JSVal × Nat)
deriving DecidableEq, BEq, Repr

/-- The inner while loop of lookup for one argument index: pop a
frame, look up its role table, fold the found methods through the
rank update, push the delegates, and continue while the stack is
nonempty and fewer than the fuel bound of iterations have run (the
source caps the loop at ten iterations per argument). -/
def lookupLoop (h : Heap) (st : ProcState) (len i : Nat) (role : String) :
    Nat → List Frame → Nat → List (String × Rank) → Option String →
    Except JSErr LoopOut
  | 0, stack, _, ranks, msm =>
      Except.ok { ranks := ranks, msm := msm, stack := stack, trace := [] }
  | _ + 1, [], _, ranks, msm =>
      Except.ok { ranks := ranks, msm := msm, stack := [], trace := [] }
  | fuel + 1, fr :: rest, position, ranks, msm =>
      match get_table_read h st fr.arg with
      | Except.error e => Except.error e
      | Except.ok table? =>
          let acc := match table? with
            | some t =>
                match tableGet t role with
                | some methods => methods.foldl (rankStep len i position) (msm, ranks)
                | none => (msm, ranks)
            | none => (msm, ranks)
          match delegates h fr with
          | Except.error e => Except.error e
          | Except.ok pushed =>
              match lookupLoop h st len i role fuel (pushed ++ rest) (position + 1) acc.2 acc.1 with
              | Except.error e => Except.error e
              | Except.ok o =>
                  Except.ok { ranks := o.ranks, msm := o.msm, stack := o.stack,
                              trace := (fr.arg, position) :: o.trace }

/-- The outer for loop of lookup: walk each argument in turn with a
fresh position counter and iteration budget but a persistent stack,
threading the rank table and most specific method through. -/
def lookupArgs (h : Heap) (st : ProcState) (len : Nat) :
    List JSVal → Nat → List Frame → List (String × Rank) → Option String →
    Except JSErr (List (String × Rank) × Option String × List Frame)
  | [], _, stack, ranks, msm => Except.ok (ranks, msm, stack)
  | a :: rest, i, stack, ranks, msm =>
      match lookupLoop h st len i (st.selector ++ ":" ++ toString i) 10
          ({ isValue := true, arg := a } :: stack) 0 ranks msm with
      | Except.error e => Except.error e
      | Except.ok o => lookupArgs h st len rest (i + 1) o.stack o.ranks o.msm

/-- The name of the most specific method chosen by lookup, or none. -/
def lookupName (h : Heap) (st : ProcState) (args : List JSVal) :
    Except JSErr (Option String) :=
  match lookupArgs h st args.length args 0 [] [] none with
  | Except.error e => Except.error e
  | Except.ok r => Except.ok r.2.1

/-- The body returned by lookup, METHODS of the most specific method. -/
def lookupJS (h : Heap) (st : ProcState) (args : List JSVal) :
    Except JSErr (Option Body) :=
  match lookupName h st args with
  | Except.error e => Except.error e
  | Except.ok msm =>
      Except.ok (msm.bind (fun m =>
        match List.find? (fun p => p.1 == m) st.METHODS with
        | some p => some p.2
        | none => none))

/-- The dispatch wrapper of the source: run lookup, apply the body to
the full argument list when found, otherwise throw the no applicable
method condition. -/
def dispatch (h : Heap) (st : ProcState) (args : List JSVal) : Except JSErr JSVal :=
  match lookupJS h st args with
  | Except.error e => Except.error e
  | Except.ok (some body) => Except.ok (body args)
  | Except.ok none => Except.error JSErr.noApplicableMethod

/-- The delegation walk of a single argument: the trace of owners
visited by the inner loop, with their chain distances, or none when
the walk throws. -/
def walkTrace (h : Heap) (st : ProcState) (i : Nat) (arg : JSVal) :
    Option (List (JSVal × Nat)) :=
  match lookupLoop h st 1 i (st.selector ++ ":" ++ toString i) 10
      [{ isValue := true, arg := arg }] 0 [] none with
  | Except.ok o => some o.trace
  | Except.error _ => none

/-! Concrete heaps and procedure states used to exercise the claims.
The scenario heap extends the base heap with a user-defined hierarchy
in the standard JavaScript style: a Super constructor with its
prototype, a Sub constructor whose prototype property is a Super
instance, a Sub instance whose own constructor property is Sub (the
usual constructor-repair idiom), a plain Super instance, and a plain
function value. -/

def superProtoRef : Nat := 12
def superRef : Nat := 13
def subProtoRef : Nat := 14
def subRef : Nat := 15
def subValRef : Nat := 16
def superValRef : Nat := 17
def fnValRef : Nat := 18

def scenarioHeap : Heap :=
  baseHeap ++
  [ { proto := some objectProtoRef, consProp := some (JSVal.obj superRef) },
    { proto := some functionProtoRef, protoProp := some (JSVal.obj superProtoRef) },
    { proto := some superProtoRef },
    { proto := some functionProtoRef, protoProp := some (JSVal.obj subProtoRef) },
    { proto := some subProtoRef, consProp := some (JSVal.obj subRef) },
    { proto := some superProtoRef },
    { proto := some functionProtoRef } ]

/-- The Super constructor as a specializer value. -/
def SuperV : JSVal := JSVal.obj superRef

/-- The Sub constructor as a specializer value. -/
def SubV : JSVal := JSVal.obj subRef

/-- A Sub instance: its delegation walk visits the Sub constructor at
distance one and the Super constructor at distance three. -/
def subVal : JSVal := JSVal.obj subValRef

/-- A plain Super instance: its delegation walk visits the Super
constructor at distance one and never the Sub constructor. -/
def superVal : JSVal := JSVal.obj superValRef

/-- Extract the state from a registration known to succeed, keeping
the unchanged state when it does not. -/
def regD (r : Except JSErr (Heap × ProcState)) (dflt : Heap × ProcState) :
    Heap × ProcState :=
  match r with
  | Except.ok hs => hs
  | Except.error _ => dflt

/-- Register two methods in sequence on a heap. -/
def reg2 (h : Heap) (st : ProcState) (s1 : List JSVal) (b1 : Body)
    (s2 : List JSVal) (b2 : Body) : Heap × ProcState :=
  match methodReg h st s1 b1 with
  | Except.ok (h1, st1) => regD (methodReg h1 st1 s2 b2) (h1, st1)
  | Except.error _ => (h, st)

def bodyA : Body := fun _ => JSVal.str "A"
def bodyB : Body := fun _ => JSVal.str "B"
def bodyC : Body := fun _ => JSVal.str "C"

/-- Procedure with method A on specializers Super, Sub and method B on
Sub, Super: the lexical-order scenario. -/
def lexProc : Heap × ProcState :=
  reg2 scenarioHeap (procInit "lex") [SuperV, SubV] bodyA [SubV, SuperV] bodyB

/-- Procedure with method A on Super, Sub and method B on Super,
Super: the second-position tiebreak scenario. -/
def tieProc : Heap × ProcState :=
  reg2 scenarioHeap (procInit "tie") [SuperV, SubV] bodyA [SuperV, SuperV] bodyB

/-- Procedure with a method on the Super marker and a method on the
Sub marker at the same position: the closest-wins scenario. -/
def cloProc (b1 b2 : Body) : Heap × ProcState :=
  reg2 scenarioHeap (procInit "clo") [SuperV] b1 [SubV] b2

/-- Procedure with three independent methods on Sub and Function,
Object and Function, and String and Function: the exactly-once
counting scenario. -/
def onceProc : Heap × ProcState :=
  regD (methodReg (reg2 scenarioHeap (procInit "once")
          [SubV, JSVal.obj functionRef] bodyA
          [JSVal.obj objectRef, JSVal.obj functionRef] bodyB).1
        (reg2 scenarioHeap (procInit "once")
          [SubV, JSVal.obj functionRef] bodyA
          [JSVal.obj objectRef, JSVal.obj functionRef] bodyB).2
        [JSVal.obj stringRef, JSVal.obj functionRef] bodyC)
    (reg2 scenarioHeap (procInit "once")
      [SubV, JSVal.obj functionRef] bodyA
      [JSVal.obj objectRef, JSVal.obj functionRef] bodyB)

/-- Procedure with one method specialized on the Function marker at
position zero and the Number marker at position one: the input on
which the raw filled counter double counts. -/
def dblProc : Heap × ProcState :=
  regD (methodReg baseHeap (procInit "dbl")
    [JSVal.obj functionRef, JSVal.obj numberRef] bodyA) (baseHeap, procInit "dbl")

/-- Procedure with a single method specialized on the Number type
marker. -/
def numProc (b : Body) : Heap × ProcState :=
  regD (methodReg baseHeap (procInit "nm") [JSVal.obj numberRef] b)
    (baseHeap, procInit "nm")

/-- Procedure with a single method specialized on the String type
marker. -/
def strProc (b : Body) : Heap × ProcState :=
  regD (methodReg baseHeap (procInit "sm") [JSVal.obj stringRef] b)
    (baseHeap, procInit "sm")

/-- Procedure with a single method specialized on the Boolean type
marker. -/
def boolProc (b : Body) : Heap × ProcState :=
  regD (methodReg baseHeap (procInit "bm") [JSVal.obj booleanRef] b)
    (baseHeap, procInit "bm")

/-- Procedure with a single method specialized on the string value
foo. -/
def fooProc (b : Body) : Heap × ProcState :=
  regD (methodReg baseHeap (procInit "fv") [JSVal.str "foo"] b)
    (baseHeap, procInit "fv")

/-- Procedure with a single method specialized on the Sub marker
only. -/
def subOnlyProc (b : Body) : Heap × ProcState :=
  regD (methodReg scenarioHeap (procInit "so") [SubV] b)
    (scenarioHeap, procInit "so")

/-- Procedure with a single unary method specialized on ANY. -/
def any1Proc (b : Body) : Heap × ProcState :=
  regD (methodReg baseHeap (procInit "anyone") [ANY] b)
    (baseHeap, procInit "anyone")

/-- Procedure with a single binary method specialized on ANY at both
positions. -/
def any2Proc (b : Body) : Heap × ProcState :=
  regD (methodReg baseHeap (procInit "anytwo") [ANY, ANY] b)
    (baseHeap, procInit "anytwo")

/-- Procedure with a single method specialized on the value null. -/
def nullProc (b : Body) : Heap × ProcState :=
  regD (methodReg baseHeap (procInit "nl") [JSVal.null] b)
    (baseHeap, procInit "nl")

/-- A heap whose delegation chain from the object at reference twelve
alternates through five constructor and prototype pairs before it
would reach ANY, so the chain is longer than the ten-iteration cap of
the walk. -/
def deepHeap : Heap :=
  baseHeap ++
  [ { proto := some objectProtoRef, consProp := some (JSVal.obj 13) },
    { proto := some functionProtoRef, protoProp := some (JSVal.obj 14) },
    { proto := some objectProtoRef, consProp := some (JSVal.obj 15) },
    { proto := some functionProtoRef, protoProp := some (JSVal.obj 16) },
    { proto := some objectProtoRef, consProp := some (JSVal.obj 17) },
    { proto := some functionProtoRef, protoProp := some (JSVal.obj 18) },
    { proto := some objectProtoRef, consProp := some (JSVal.obj 19) },
    { proto := some functionProtoRef, protoProp := some (JSVal.obj 20) },
    { proto := some objectProtoRef, consProp := some (JSVal.obj 21) },
    { proto := some functionProtoRef, protoProp := some (JSVal.obj anyProtoRef) } ]

/-- The universal method registered on the deep heap. -/
def deepAnyProc : Heap × ProcState :=
  regD (methodReg deepHeap (procInit "dp") [ANY] bodyA) (deepHeap, procInit "dp")

/-- The trace of the delegation walk from the deep-heap value: the
ten owners visited before the iteration cap stops the walk. -/
def deepTrace : List (JSVal × Nat) :=
  [ (JSVal.obj 12, 0), (JSVal.obj 13, 1), (JSVal.obj 14, 2), (JSVal.obj 15, 3),
    (JSVal.obj 16, 4), (JSVal.obj 17, 5), (JSVal.obj 18, 6), (JSVal.obj 19, 7),
    (JSVal.obj 20, 8), (JSVal.obj 21, 9) ]

/-! Helper lemmas about error propagation and the iteration bound of
the walk. -/

theorem get_table_read_err {h : Heap} {st : ProcState} {v : JSVal} {e : JSErr}
    (hv : get_table_read h st v = Except.error e) : e = JSErr.typeError := by
  cases v <;> simp [get_table_read] at hv
  exact hv.symm

theorem getPropChain_err {h : Heap} {f : ObjRecord → Option JSVal} {v : JSVal} {e : JSErr}
    (hv : getPropChain h f v = Except.error e) : e = JSErr.typeError := by
  cases v <;> simp [getPropChain] at hv <;> exact hv.symm

theorem delegates_err {h : Heap} {fr : Frame} {e : JSErr}
    (hd : delegates h fr = Except.error e) : e = JSErr.typeError := by
  unfold delegates at hd
  split at hd
  case isTrue =>
    cases hc : consOf h fr.arg with
    | error e2 =>
        rw [hc] at hd
        cases hd
        exact getPropChain_err hc
    | ok c => rw [hc] at hd; cases hd
  case isFalse =>
    cases hp : protoPropOf h fr.arg with
    | error e2 =>
        rw [hp] at hd
        cases hd
        exact getPropChain_err hp
    | ok pv =>
        rw [hp] at hd
        simp only at hd
        cases hc : consOf h pv with
        | error e2 =>
            simp only [hc] at hd
            cases hd
            exact getPropChain_err hc
        | ok pc =>
            simp only [hc] at hd
            split at hd
            · cases hd
            · split at hd <;> cases hd

theorem lookupLoop_err {h : Heap} {st : ProcState} {len i : Nat} {role : String} :
    ∀ {fuel : Nat} {stack : List Frame} {position : Nat}
      {ranks : List (String × Rank)} {msm : Option String} {e : JSErr},
    lookupLoop h st len i role fuel stack position ranks msm = Except.error e →
    e = JSErr.typeError := by
  intro fuel
  induction fuel with
  | zero => intro stack position ranks msm e hl; simp [lookupLoop] at hl
  | succ n ih =>
      intro stack position ranks msm e hl
      cases stack with
      | nil => simp [lookupLoop] at hl
      | cons fr rest =>
          rw [lookupLoop] at hl
          cases hg : get_table_read h st fr.arg with
          | error e2 =>
              rw [hg] at hl
              cases hl
              exact get_table_read_err hg
          | ok table? =>
              rw [hg] at hl
              simp only at hl
              cases hd : delegates h fr with
              | error e2 =>
                  rw [hd] at hl
                  cases hl
                  exact delegates_err hd
              | ok pushed =>
                  rw [hd] at hl
                  simp only at hl
                  cases hr : lookupLoop h st len i role n (pushed ++ rest) (position + 1) _ _ with
                  | error e2 =>
                      rw [hr] at hl
                      cases hl
                      exact ih hr
                  | ok o => rw [hr] at hl; cases hl

theorem lookupLoop_trace_le {h : Heap} {st : ProcState} {len i : Nat} {role : String} :
    ∀ {fuel : Nat} {stack : List Frame} {position : Nat}
      {ranks : List (String × Rank)} {msm : Option String} {o : LoopOut},
    lookupLoop h st len i role fuel stack position ranks msm = Except.ok o →
    o.trace.length ≤ fuel := by
  intro fuel
  induction fuel with
  | zero =>
      intro stack position ranks msm o hl
      simp [lookupLoop] at hl
      simp [← hl]
  | succ n ih =>
      intro stack position ranks msm o hl
      cases stack with
      | nil =>
          simp [lookupLoop] at hl
          simp [← hl]
      | cons fr rest =>
          rw [lookupLoop] at hl
          cases hg : get_table_read h st fr.arg with
          | error e2 => rw [hg] at hl; cases hl
          | ok table? =>
              rw [hg] at hl
              simp only at hl
              cases hd : delegates h fr with
              | error e2 => rw [hd] at hl; cases hl
              | ok pushed =>
                  rw [hd] at hl
                  simp only at hl
                  cases hr : lookupLoop h st len i role n (pushed ++ rest) (position + 1) _ _ with
                  | error e2 => rw [hr] at hl; cases hl
                  | ok o2 =>
                      rw [hr] at hl
                      cases hl
                      have := ih hr
                      simp
                      omega

theorem lookupLoop_null {h : Heap} {st : ProcState} {len i : Nat} {role : String}
    {fuel : Nat} {rest : List Frame} {position : Nat}
    {ranks : List (String × Rank)} {msm : Option String} :
    lookupLoop h st len i role (fuel + 1)
      ({ isValue := true, arg := JSVal.null } :: rest) position ranks msm =
    Except.error JSErr.typeError := rfl

theorem lookupLoop_undef {h : Heap} {st : ProcState} {len i : Nat} {role : String}
    {fuel : Nat} {rest : List Frame} {position : Nat}
    {ranks : List (String × Rank)} {msm : Option String} :
    lookupLoop h st len i role (fuel + 1)
      ({ isValue := true, arg := JSVal.undef } :: rest) position ranks msm =
    Except.error JSErr.typeError := rfl

theorem lookupArgs_mem {h : Heap} {st : ProcState} {len : Nat} :
    ∀ {args : List JSVal} {i : Nat} {stack : List Frame}
      {ranks : List (String × Rank)} {msm : Option String},
    (JSVal.null ∈ args ∨ JSVal.undef ∈ args) →
    lookupArgs h st len args i stack ranks msm = Except.error JSErr.typeError := by
  intro args
  induction args with
  | nil => intro i stack ranks msm hm; rcases hm with hm | hm <;> simp at hm
  | cons a rest ih =>
      intro i stack ranks msm hm
      by_cases ha : a = JSVal.null ∨ a = JSVal.undef
      · rcases ha with rfl | rfl
        · rw [lookupArgs, lookupLoop_null]
        · rw [lookupArgs, lookupLoop_undef]
      · push_neg at ha
        have hrest : JSVal.null ∈ rest ∨ JSVal.undef ∈ rest := by
          rcases hm with hm | hm
          · rcases List.mem_cons.mp hm with rfl | hmem
            · exact absurd rfl ha.1
            · exact Or.inl hmem
          · rcases List.mem_cons.mp hm with rfl | hmem
            · exact absurd rfl ha.2
            · exact Or.inr hmem
        rw [lookupArgs]
        cases hl : lookupLoop h st len i (st.selector ++ ":" ++ toString i) 10
            ({ isValue := true, arg := a } :: stack) 0 ranks msm with
        | error e => rw [lookupLoop_err hl]
        | ok o => exact ih hrest

/-! The claims. -/

/-- C1: among candidate methods with differing rank vectors, lookup
selects the one whose rank vector is lexicographically smallest,
leftmost position dominating.  With method A registered for Super and
Sub, and method B for Sub and Super, invoking with a Sub-chain value
at both positions selects B, the second method registered; with
method A for Super and Sub and method B for Super and Super it
selects A, the first, because the first positions tie and the second
position decides. -/
theorem claim_c1_lexicographic_selection :
    lookupName lexProc.1 lexProc.2 [subVal, subVal] = Except.ok (some "lex_2") ∧
    dispatch lexProc.1 lexProc.2 [subVal, subVal] = Except.ok (JSVal.str "B") ∧
    lookupName tieProc.1 tieProc.2 [subVal, subVal] = Except.ok (some "tie_1") ∧
    dispatch tieProc.1 tieProc.2 [subVal, subVal] = Except.ok (JSVal.str "A") :=
  ⟨by decide, by decide, by decide, by decide⟩

/-- C2: with a method on the Super marker and a method on the Sub
marker at the same position, a value whose delegation walk reaches
the Sub marker at distance one and the Super marker at distance three
selects the Sub method, never the Super method. -/
theorem claim_c2_closest_wins :
    walkTrace (cloProc bodyA bodyB).1 (cloProc bodyA bodyB).2 0 subVal =
      some [(subVal, 0), (SubV, 1), (JSVal.obj subProtoRef, 2), (SuperV, 3), (ANY, 4)] ∧
    lookupName (cloProc bodyA bodyB).1 (cloProc bodyA bodyB).2 [subVal] =
      Except.ok (some "clo_2") ∧
    dispatch (cloProc bodyA bodyB).1 (cloProc bodyA bodyB).2 [subVal] =
      Except.ok (JSVal.str "B") :=
  ⟨by decide, by decide, by decide⟩

/-- C3: the in-particular scenario of the claim does resolve to the
method registered for String and Function, but the invariant fails on
the code: with one method registered for the Function marker at
position zero and the Number marker at position one, invoking with
the Function constructor itself and a string finds the Function
constructor twice along the first delegation walk, increments filled
twice for the same method and position, and dispatches the method
although its second specializer matches nothing. -/
theorem claim_c3_filled_double_count :
    lookupName onceProc.1 onceProc.2 [JSVal.str "foo", JSVal.obj fnValRef] =
      Except.ok (some "once_3") ∧
    dispatch onceProc.1 onceProc.2 [JSVal.str "foo", JSVal.obj fnValRef] =
      Except.ok (JSVal.str "C") ∧
    lookupName dblProc.1 dblProc.2 [JSVal.obj functionRef, JSVal.str "x"] =
      Except.ok (some "dbl_1") ∧
    dispatch dblProc.1 dblProc.2 [JSVal.obj functionRef, JSVal.str "x"] =
      Except.ok (JSVal.str "A") :=
  ⟨by decide, by decide, by decide, by decide⟩

/-- C4 counterexample: the only registered method has two
specializers, the call passes one argument, so no method has a
recorded match at every argument position of its registration and
the argument count matches no registered specializer count, yet
invoke returns the body result instead of raising the
no-applicable-method condition, because filled reaches the call
arity after the first position alone. -/
theorem claim_c4_counterexample :
    dispatch (any2Proc bodyA).1 (any2Proc bodyA).2 [JSVal.str "a"] =
      Except.ok (JSVal.str "A") := by decide

/-- C4 amended: invoke applies the winning method body to the full
argument list and returns its result exactly when lookup completes
without a TypeError and yields a method name; when lookup completes
without a TypeError and yields no name, invoke raises the
no-applicable-method condition. -/
theorem claim_c4_dispatch :
    (∀ (h : Heap) (st : ProcState) (args : List JSVal) (name : String)
        (mp : String × Body),
      lookupName h st args = Except.ok (some name) →
      List.find? (fun p => p.1 == name) st.METHODS = some mp →
      dispatch h st args = Except.ok (mp.2 args)) ∧
    (∀ (h : Heap) (st : ProcState) (args : List JSVal),
      lookupName h st args = Except.ok none →
      dispatch h st args = Except.error JSErr.noApplicableMethod) := by
  constructor
  · intro h st args name mp hname hfind
    simp [dispatch, lookupJS, hname, hfind]
  · intro h st args hname
    simp [dispatch, lookupJS, hname]

/-- C4 witness: a concrete call on a procedure with no methods raises
the no-applicable-method condition. -/
theorem claim_c4_witness :
    dispatch baseHeap (procInit "w4") [JSVal.str "a"] =
      Except.error JSErr.noApplicableMethod :=
  claim_c4_dispatch.2 baseHeap (procInit "w4") [JSVal.str "a"] (by decide)

/-- C5: a method specialized on a boxed type marker matches every
concrete primitive of that type at that position, for any method
body: the Number marker matches every numeric literal, the String
marker every string, the Boolean marker both booleans. -/
theorem claim_c5_value_to_type (b : Body) (n : Int) (s : String) (v : Bool) :
    dispatch (numProc b).1 (numProc b).2 [JSVal.num n] = Except.ok (b [JSVal.num n]) ∧
    dispatch (strProc b).1 (strProc b).2 [JSVal.str s] = Except.ok (b [JSVal.str s]) ∧
    dispatch (boolProc b).1 (boolProc b).2 [JSVal.bool v] = Except.ok (b [JSVal.bool v]) := by
  refine ⟨rfl, rfl, ?_⟩
  cases v <;> rfl

/-- C6: a value does not match a method registered for a different
concrete value, an unrelated type marker, or a subtype marker its
delegation chain does not pass: dispatching the string bar against a
method for the value foo, a string against a Number-marker method,
and a Super instance against a Sub-marker method all raise the
no-applicable-method condition. -/
theorem claim_c6_negative_exclusion (b : Body) :
    dispatch (fooProc b).1 (fooProc b).2 [JSVal.str "bar"] =
      Except.error JSErr.noApplicableMethod ∧
    dispatch (numProc b).1 (numProc b).2 [JSVal.str "x"] =
      Except.error JSErr.noApplicableMethod ∧
    dispatch (subOnlyProc b).1 (subOnlyProc b).2 [superVal] =
      Except.error JSErr.noApplicableMethod :=
  ⟨rfl, rfl, rfl⟩

/-- C7 counterexample: null is a runtime value, a method specialized
on ANY is registered, yet invoking with null raises a TypeError in
the walk instead of matching the universal method, so the delegation
chain of null does not terminate at ANY and the universal method is
not applicable to every call of matching arity. -/
theorem claim_c7_counterexample :
    dispatch (any1Proc bodyA).1 (any1Proc bodyA).2 [JSVal.null] =
      Except.error JSErr.typeError := by decide

/-- C7 amended: for every string, number and boolean value the
delegation chain terminates at ANY, a method registered with ANY as
the specializer obtains a rank there, and a method specialized on ANY
at every position is applicable and selected for every such call of
matching arity. -/
theorem claim_c7_any_matches (b : Body) (s : String) (n : Int) (v : Bool) :
    dispatch (any1Proc b).1 (any1Proc b).2 [JSVal.str s] = Except.ok (b [JSVal.str s]) ∧
    dispatch (any1Proc b).1 (any1Proc b).2 [JSVal.num n] = Except.ok (b [JSVal.num n]) ∧
    dispatch (any1Proc b).1 (any1Proc b).2 [JSVal.bool v] = Except.ok (b [JSVal.bool v]) ∧
    dispatch (any2Proc b).1 (any2Proc b).2 [JSVal.str s, JSVal.num n] =
      Except.ok (b [JSVal.str s, JSVal.num n]) := by
  refine ⟨rfl, rfl, ?_, rfl⟩
  cases v <;> rfl

/-- C8 counterexample: on the deep heap the delegation walk from the
value visits exactly ten owners, the iteration cap of the loop, and
never reaches the universal root ANY, so the registered universal
method does not match and dispatch raises the no-applicable-method
condition. -/
theorem claim_c8_counterexample :
    walkTrace deepAnyProc.1 deepAnyProc.2 0 (JSVal.obj 12) = some deepTrace ∧
    deepTrace.length = 10 ∧
    deepTrace.all (fun p => p.1 != ANY) = true ∧
    dispatch deepAnyProc.1 deepAnyProc.2 [JSVal.obj 12] =
      Except.error JSErr.noApplicableMethod :=
  ⟨by decide, by decide, by decide, by decide⟩

/-- C8 amended: lookup always terminates because each delegation walk
runs at most as many iterations as its fuel, ten per argument in
lookup, and the walk reaches the universal root only when the chain
reaches it within that cap, as a primitive argument does at distance
two. -/
theorem claim_c8_bounded_walk :
    (∀ (h : Heap) (st : ProcState) (len i : Nat) (role : String) (fuel : Nat)
        (stack : List Frame) (position : Nat) (ranks : List (String × Rank))
        (msm : Option String) (o : LoopOut),
      lookupLoop h st len i role fuel stack position ranks msm = Except.ok o →
      o.trace.length ≤ fuel) ∧
    (∀ s : String, walkTrace baseHeap (procInit "w") 0 (JSVal.str s) =
      some [(JSVal.str s, 0), (JSVal.obj stringRef, 1), (ANY, 2)]) := by
  constructor
  · intro h st len i role fuel stack position ranks msm o hl
    exact lookupLoop_trace_le hl
  · intro s
    rfl

/-- C8 witness: the bound instantiated on a concrete walk of the
numeric literal one in the base heap. -/
theorem claim_c8_witness :
    (LoopOut.mk [] none []
      [(JSVal.num 1, 0), (JSVal.obj numberRef, 1), (ANY, 2)]).trace.length ≤ 10 :=
  claim_c8_bounded_walk.1 baseHeap (procInit "w") 1 0
    ((procInit "w").selector ++ ":" ++ toString 0) 10
    [{ isValue := true, arg := JSVal.num 1 }] 0 [] none
    (LoopOut.mk [] none [] [(JSVal.num 1, 0), (JSVal.obj numberRef, 1), (ANY, 2)])
    (by decide)

/-- C9: registering a method whose specializer is undefined throws a
TypeError from the hasOwnProperty call inside get_table, while every
other value kind registers successfully, contradicting the
specification that every specializer resolves to some role owner
without error. -/
theorem claim_c9_undef_registration :
    methodReg baseHeap (procInit "u") [JSVal.undef] bodyA =
      Except.error JSErr.typeError ∧
    (methodReg baseHeap (procInit "u") [JSVal.str "foo"] bodyA).isOk = true ∧
    (methodReg baseHeap (procInit "u") [JSVal.num 56] bodyA).isOk = true ∧
    (methodReg baseHeap (procInit "u") [JSVal.bool true] bodyA).isOk = true ∧
    (methodReg baseHeap (procInit "u") [JSVal.null] bodyA).isOk = true ∧
    (methodReg baseHeap (procInit "u") [JSVal.obj objectRef] bodyA).isOk = true ∧
    (methodReg baseHeap (procInit "u") [ANY] bodyA).isOk = true :=
  ⟨rfl, rfl, rfl, rfl, rfl, rfl, rfl⟩

/-- C10: invoking with null or undefined anywhere among the arguments
always raises a TypeError from inside the dispatch walk, for every
heap and every procedure state, including states where a method is
registered for that very value, so dispatch never selects a method
and never returns for such calls. -/
theorem claim_c10_null_undef (h : Heap) (st : ProcState) (args : List JSVal)
    (hm : JSVal.null ∈ args ∨ JSVal.undef ∈ args) :
    dispatch h st args = Except.error JSErr.typeError := by
  rw [dispatch, lookupJS, lookupName, lookupArgs_mem hm]

/-- C10 witness: a procedure with a method registered for the value
null still raises a TypeError when invoked with null. -/
theorem claim_c10_witness :
    dispatch (nullProc bodyA).1 (nullProc bodyA).2 [JSVal.null] =
      Except.error JSErr.typeError :=
  claim_c10_null_undef (nullProc bodyA).1 (nullProc bodyA).2 [JSVal.null]
    (Or.inl (List.mem_singleton.mpr rfl))

end PMD
